import Mathlib

/-! Burrow `logger.go`: PID marker file, output-log rotation, logging facade.

A shallow embedding of `src/logger.go`.  The Go functions are translated into
pure Lean functions over an explicit process state (`State`): the file system
seen by the process, its process identifier, the wall clock, the bindings of
file descriptors 1 and 2, and the records emitted on the package-level seelog
logger.  `os.Exit` is an outcome of its own, and the unbounded recursion of
`createPidFile` is bounded by a fuel argument that counts the recursive calls
still allowed.

Go strings are modelled by Lean strings.
-/

namespace Burrow

/-! ## Errors, log records -/

/-- Error numbers reported by the modelled system calls. -/
inductive Errno
  | EEXIST
  | ENOENT
  | EACCES
  deriving DecidableEq

/-- Go error values produced by the library calls of `logger.go`:
`*os.PathError`, `*os.LinkError` and `os.ErrInvalid` (the error of every
method called on a nil `*os.File`). -/
inductive GoError
  | pathError (op : String) (path : String) (errno : Errno)
  | linkError (op : String) (old : String) (new : String) (errno : Errno)
  | errInvalid
  deriving DecidableEq

/-- The six seelog severities used by `logger.go`. -/
inductive Level
  | Trace
  | Debug
  | Info
  | Warn
  | Error
  | Critical
  deriving DecidableEq

/-- One formatted-logging call: the method (severity), the message template and
the argument list, in the order given. -/
structure LogCall (α : Type) where
  level : Level
  message : String
  params : List α
  deriving DecidableEq

/-- Argument values that `logger.go` itself passes to the package-level logger. -/
inductive Arg
  | str (s : String)
  | int (i : Int)
  | err (e : GoError)
  | method (name : String)
  deriving DecidableEq

/-! ## The host: file system, clock, process -/

/-- The file system as the process sees it.  `files p` is the content of the
entry at path `p`, if one exists (for an entry of `/proc` only its existence
matters).  `unreadable p` says that the entry at `p` cannot be opened for
reading.  `readOnly p` says that the directory entry at `p` cannot be created,
removed or renamed (its directory is not writable). -/
structure FS where
  files : String → Option String
  unreadable : String → Bool
  readOnly : String → Bool

/-- Broken-down local time, as returned by `time.Now()` in the local zone. -/
structure LocalTime where
  year : Nat
  month : Nat
  day : Nat
  hour : Nat
  minute : Nat
  second : Nat
  deriving DecidableEq

/-- A `*os.File`: nil, or a handle opened on a path. -/
abbrev File := Option String

/-- The state of the running process and of its host. -/
structure State where
  fs : FS
  pid : Int
  now : LocalTime
  stdout : File
  stderr : File
  log : List (LogCall Arg)

/-- The result of a call that may end in `os.Exit`. -/
inductive Outcome (α : Type)
  | returned (val : α) (st : State)
  | exited (status : Nat) (st : State)

/-- The result of `createPidFile` run with room for a bounded number of nested
calls: it returned, it ended the process with `os.Exit`, or the room is used up
and it is about to call itself again in state `st`. -/
inductive Acquire
  | done (st : State)
  | exited (status : Nat) (st : State)
  | retrying (st : State)

/-- A call `log.<Level>f(message, params...)` on the package-level logger. -/
def State.logf (st : State) (level : Level) (message : String) (params : List Arg) : State :=
  { st with log := st.log ++ [⟨level, message, params⟩] }

/-- Replace the entry at `name`. -/
def FS.set (fs : FS) (name : String) (entry : Option String) : FS :=
  { fs with files := fun p => if p = name then entry else fs.files p }

/-- A new, empty regular file at `name`, created with mode 0644: its owner can
read it, whatever stood at `name` before. -/
def FS.create (fs : FS) (name : String) : FS :=
  { fs with
    files := fun p => if p = name then some "" else fs.files p
    unreadable := fun p => if p = name then false else fs.unreadable p }

/-- Move the entry at `old`, content `data`, to `new`; the entry keeps its
permissions and replaces whatever was at `new`. -/
def FS.move (fs : FS) (old : String) (new : String) (data : String) : FS :=
  { fs with
    files := fun p => if p = new then some data else if p = old then none else fs.files p
    unreadable := fun p => if p = new then fs.unreadable old else fs.unreadable p }

/-! ## Library calls -/

/-- `os.OpenFile(name, flags, 0644)` for the two flag sets of `logger.go`, both
of which hold `O_CREATE|O_WRONLY`; `excl` says whether `O_EXCL` is set.  An
existing entry is an error under `O_EXCL` and is opened as it is otherwise; a
missing entry is created empty unless its directory is not writable.  On error
the returned file is nil. -/
def OpenFile (fs : FS) (name : String) (excl : Bool) : FS × File × Option GoError :=
  match fs.files name with
  | some _ =>
    if excl then (fs, none, some (.pathError "open" name .EEXIST))
    else (fs, some name, none)
  | none =>
    if fs.readOnly name then (fs, none, some (.pathError "open" name .EACCES))
    else (fs.create name, some name, none)

/-- `(*os.File).Write` at offset 0, the offset of every handle `logger.go`
writes to (each is written at most once, right after it is opened).  A nil
file changes nothing and reports `os.ErrInvalid`. -/
def File.Write (fs : FS) (f : File) (data : String) : FS × Option GoError :=
  match f with
  | none => (fs, some .errInvalid)
  | some name =>
    match fs.files name with
    | some old => (fs.set name (some ⟨data.data ++ old.data.drop data.data.length⟩), none)
    | none => (fs, none)

/-- `(*os.File).Close`: a nil file reports `os.ErrInvalid`; the file system is
not changed. -/
def File.Close (f : File) : Option GoError :=
  match f with
  | none => some .errInvalid
  | some _ => none

/-- `ioutil.ReadFile(name)`. -/
def ReadFile (fs : FS) (name : String) : Except GoError String :=
  match fs.files name with
  | none => .error (.pathError "open" name .ENOENT)
  | some data =>
    if fs.unreadable name then .error (.pathError "open" name .EACCES)
    else .ok data

/-- `os.Stat(name)`: nil error exactly when an entry exists at `name`. -/
def Stat (fs : FS) (name : String) : Option GoError :=
  match fs.files name with
  | some _ => none
  | none => some (.pathError "stat" name .ENOENT)

/-- `os.Remove(name)`. -/
def Remove (fs : FS) (name : String) : FS × Option GoError :=
  match fs.files name with
  | none => (fs, some (.pathError "remove" name .ENOENT))
  | some _ =>
    if fs.readOnly name then (fs, some (.pathError "remove" name .EACCES))
    else (fs.set name none, none)

/-- `os.Rename(old, new)`: moves the entry, replacing whatever was at `new`. -/
def Rename (fs : FS) (old : String) (new : String) : FS × Option GoError :=
  match fs.files old with
  | none => (fs, some (.linkError "rename" old new .ENOENT))
  | some data =>
    if fs.readOnly old || fs.readOnly new then (fs, some (.linkError "rename" old new .EACCES))
    else (fs.move old new data, none)

/-- `syscall.Dup2(int(f.Fd()), fd)` for `fd` 1 or 2: a nil file has descriptor
-1 and the call fails, leaving the binding as it was. -/
def Dup2 (st : State) (f : File) (fd : Nat) : State :=
  match f with
  | none => st
  | some _ => if fd = 1 then { st with stdout := f } else { st with stderr := f }

/-- The value of a run of decimal digits; `none` for the empty run and for a
run holding any other character (`strconv.ErrSyntax`). -/
def parseDigits (cs : List Char) : Option Nat :=
  match cs with
  | [] => none
  | _ => if cs.all Char.isDigit then some (cs.foldl (fun n c => 10 * n + (c.toNat - 48)) 0) else none

/-- `strconv.Atoi(s)` for a 64-bit `int`; `none` stands for a non-nil error.
An optional sign `+` or `-`, then one or more decimal digits, and the value
must fit: at most `2^63 - 1`, at least `-2^63`. -/
def Atoi (s : String) : Option Int :=
  let signed : Bool × List Char :=
    match s.data with
    | '+' :: rest => (false, rest)
    | '-' :: rest => (true, rest)
    | rest => (false, rest)
  match parseDigits signed.2 with
  | none => none
  | some un =>
    if signed.1 then (if un > 2 ^ 63 then none else some (-(un : Int)))
    else (if un ≥ 2 ^ 63 then none else some (un : Int))

/-- The Go conversion `string(i)` of an integer `i`: the UTF-8 text of the one
code point `i`, or of U+FFFD when `i` is not a valid code point. -/
def runeString (i : Int) : String :=
  if 0 ≤ i ∧ i.toNat.isValidChar then String.singleton (Char.ofNat i.toNat)
  else String.singleton (Char.ofNat 0xFFFD)

/-- Decimal text of an integer, as `fmt` prints an `int` under `%v`. -/
def fmtInt (i : Int) : String :=
  if i < 0 then "-" ++ Nat.repr i.natAbs else Nat.repr i.toNat

/-- Go `time.appendInt` for a non-negative value: its decimal text, padded on
the left with zeros to `width`. -/
def appendInt (x : Nat) (width : Nat) : String :=
  ⟨List.replicate (width - (Nat.repr x).length) '0'⟩ ++ Nat.repr x

/-- `t.Format("2006-01-02_15:04:05")`. -/
def LocalTime.Format (t : LocalTime) : String :=
  appendInt t.year 4 ++ "-" ++ appendInt t.month 2 ++ "-" ++ appendInt t.day 2 ++ "_" ++
    appendInt t.hour 2 ++ ":" ++ appendInt t.minute 2 ++ ":" ++ appendInt t.second 2

/-! ## `logger.go` -/

/-- `removePidFile` (logger.go 44-50). -/
def removePidFile (st : State) (filename : String) : State :=
  let st := st.logf .Warn "Removing PID file: %s" [.str filename]
  let r := Remove st.fs filename
  let st := { st with fs := r.1 }
  match r.2 with
  | some err => st.logf .Warn "Failed to remove PID file: %v" [.err err]
  | none => st

/-- `isProcessRunning` (logger.go 52-70). -/
def isProcessRunning (st : State) (filename : String) : Outcome Bool :=
  match ReadFile st.fs filename with
  | .error _ => .returned false st
  | .ok data =>
    match Atoi data with
    | none => .exited 1 (st.logf .Critical "Cannot parse integer: %s" [.str data])
    | some pid =>
      match Stat st.fs ("/proc/" ++ runeString pid) with
      | some _ =>
        .returned false (st.logf .Info "No Burrow process exists with PID: %d" [.int pid])
      | none =>
        .returned true (st.logf .Critical "Burrow already running with PID: %s" [.method "Name"])

/-- The last two statements of `createPidFile` (logger.go 40-41). -/
def writePid (st : State) (pidfile : File) : State :=
  let r := File.Write st.fs pidfile (fmtInt st.pid)
  let _ := File.Close pidfile
  { st with fs := r.1 }

/-- `createPidFile` (logger.go 27-42); `fuel` is the number of nested recursive
calls still allowed.  The call at line 37 is not the last statement, so every
retry holds a frame of the goroutine stack until the innermost call returns:
`fuel` is the room left on that stack, counted in frames. -/
def createPidFile (fuel : Nat) (st : State) (filename : String) : Acquire :=
  let r := OpenFile st.fs filename true
  let st := { st with fs := r.1 }
  let pidfile := r.2.1
  match r.2.2 with
  | some err =>
    match isProcessRunning st filename with
    | .exited status st => .exited status st
    | .returned true st =>
      .exited 1 (st.logf .Critical "Cannot write PID file: %v" [.err err])
    | .returned false st =>
      let _ := File.Close pidfile
      let st := removePidFile st filename
      match fuel with
      | 0 => .retrying st
      | fuel + 1 =>
        match createPidFile fuel st filename with
        | .done st => .done (writePid st pidfile)
        | other => other
  | none => .done (writePid st pidfile)

/-- `createPidFile` as the Go runtime runs it on a goroutine stack with room
for `frames` nested calls: when one more call is needed and no room is left,
the runtime ends the process with "fatal error: stack overflow", exit status
2. -/
def createPidFileOnStack (frames : Nat) (st : State) (filename : String) : Outcome Unit :=
  match createPidFile frames st filename with
  | .done st => .returned () st
  | .exited status st => .exited status st
  | .retrying st => .exited 2 st

/-- `openOutLog` (logger.go 72-86). -/
def openOutLog (st : State) (filename : String) : Outcome File :=
  let moved : Outcome Unit :=
    match Stat st.fs filename with
    | none =>
      let r := Rename st.fs filename (filename ++ "." ++ st.now.Format)
      match r.2 with
      | some err => .exited 1 (st.logf .Critical "Cannot move old out file: %v" [.err err])
      | none => .returned () { st with fs := r.1 }
    | some _ => .returned () st
  match moved with
  | .exited status st => .exited status st
  | .returned _ st =>
    let r := OpenFile st.fs filename false
    let st := { st with fs := r.1 }
    let logFile := r.2.1
    let st := Dup2 st logFile 1
    let st := Dup2 st logFile 2
    .returned logFile st

/-- The methods of seelog `LoggerInterface` that `BurrowLogger` calls, over a
logger state `σ`. -/
structure LoggerInterface (σ : Type) (α : Type) where
  Tracef : String → List α → σ → σ
  Debugf : String → List α → σ → σ
  Infof : String → List α → σ → σ
  Warnf : String → List α → σ → σ
  Errorf : String → List α → σ → σ
  Criticalf : String → List α → σ → σ

/-- `BurrowLogger` (logger.go 23-25). -/
structure BurrowLogger (σ : Type) (α : Type) where
  logger : LoggerInterface σ α

/-- `(*BurrowLogger).Trace` (logger.go 99-101). -/
def BurrowLogger.Trace {σ α : Type} (l : BurrowLogger σ α) (message : String) (params : List α) :
    σ → σ :=
  l.logger.Tracef message params

/-- `(*BurrowLogger).Debug` (logger.go 102-104). -/
def BurrowLogger.Debug {σ α : Type} (l : BurrowLogger σ α) (message : String) (params : List α) :
    σ → σ :=
  l.logger.Debugf message params

/-- `(*BurrowLogger).Info` (logger.go 105-107). -/
def BurrowLogger.Info {σ α : Type} (l : BurrowLogger σ α) (message : String) (params : List α) :
    σ → σ :=
  l.logger.Infof message params

/-- `(*BurrowLogger).Warn` (logger.go 108-110). -/
def BurrowLogger.Warn {σ α : Type} (l : BurrowLogger σ α) (message : String) (params : List α) :
    σ → σ :=
  l.logger.Warnf message params

/-- `(*BurrowLogger).Error` (logger.go 111-113). -/
def BurrowLogger.Error {σ α : Type} (l : BurrowLogger σ α) (message : String) (params : List α) :
    σ → σ :=
  l.logger.Errorf message params

/-- `(*BurrowLogger).Critical` (logger.go 114-116). -/
def BurrowLogger.Critical {σ α : Type} (l : BurrowLogger σ α) (message : String)
    (params : List α) : σ → σ :=
  l.logger.Criticalf message params

/-- An underlying logger that does nothing but record, in order, every call made
on it. -/
def recorder (α : Type) : LoggerInterface (List (LogCall α)) α where
  Tracef := fun m ps calls => calls ++ [⟨.Trace, m, ps⟩]
  Debugf := fun m ps calls => calls ++ [⟨.Debug, m, ps⟩]
  Infof := fun m ps calls => calls ++ [⟨.Info, m, ps⟩]
  Warnf := fun m ps calls => calls ++ [⟨.Warn, m, ps⟩]
  Errorf := fun m ps calls => calls ++ [⟨.Error, m, ps⟩]
  Criticalf := fun m ps calls => calls ++ [⟨.Critical, m, ps⟩]

/-- A calendar reading of the wall clock: a year of at most four digits, a
month, a day of the month, and a time of day. -/
def LocalTime.valid (t : LocalTime) : Prop :=
  t.year ≤ 9999 ∧ 1 ≤ t.month ∧ t.month ≤ 12 ∧ 1 ≤ t.day ∧ t.day ≤ 31 ∧
    t.hour ≤ 23 ∧ t.minute ≤ 59 ∧ t.second ≤ 59

instance (t : LocalTime) : Decidable t.valid := by
  unfold LocalTime.valid
  infer_instance

/-- The number that a run of decimal digits denotes. -/
def decimalValue (cs : List Char) : Nat :=
  cs.foldl (fun n c => 10 * n + (c.toNat - 48)) 0

/-- The text `s` is the time `t` in the rotation-naming pattern
`YYYY-MM-DD_HH:MM:SS`: six runs of decimal digits of lengths 4, 2, 2, 2, 2, 2
with the separators `-`, `-`, `_`, `:`, `:` between them, which denote the
year, the month, the day, the hour (0 to 23), the minute and the second of
`t`. -/
def Stamp (t : LocalTime) (s : String) : Prop :=
  ∃ y mo d h mi sec : List Char,
    s.data = y ++ '-' :: (mo ++ '-' :: (d ++ '_' :: (h ++ ':' :: (mi ++ ':' :: sec)))) ∧
    (y.length = 4 ∧ mo.length = 2 ∧ d.length = 2 ∧ h.length = 2 ∧ mi.length = 2 ∧
      sec.length = 2) ∧
    (∀ c ∈ y ++ mo ++ d ++ h ++ mi ++ sec, '0' ≤ c ∧ c ≤ '9') ∧
    decimalValue y = t.year ∧ decimalValue mo = t.month ∧ decimalValue d = t.day ∧
    decimalValue h = t.hour ∧ decimalValue mi = t.minute ∧ decimalValue sec = t.second

/-- What `strconv.Atoi` accepts, stated on the text: an optional sign `+` or
`-` followed by at least one character, all of them decimal digits, whose value
is at most `2^63 - 1`, or at most `2^63` after a `-`. -/
def SignedDecimal (s : String) : Prop :=
  ∃ (sign : List Char) (digits : List Char),
    s.data = sign ++ digits ∧ (sign = [] ∨ sign = ['+'] ∨ sign = ['-']) ∧
    digits ≠ [] ∧ (∀ c ∈ digits, '0' ≤ c ∧ c ≤ '9') ∧
    digits.foldl (fun n c => 10 * n + (c.toNat - 48)) 0 < 2 ^ 63 + (if sign = ['-'] then 1 else 0)

/-! ## Concrete hosts used in examples -/

/-- A file system holding exactly the listed entries, all readable and in
writable directories. -/
def fsOf (entries : List (String × String)) : FS where
  files := fun p => (entries.find? (fun e => e.1 = p)).map Prod.snd
  unreadable := fun _ => false
  readOnly := fun _ => false

/-- A file system whose only entry is the marker `burrow.pid`, which holds
`1234` and cannot be opened for reading. -/
def unreadableMarker : FS where
  files := fun p => if p = "burrow.pid" then some "1234" else none
  unreadable := fun p => p = "burrow.pid"
  readOnly := fun _ => false

/-- A file system whose only entry is the marker `burrow.pid`, which holds
`12a` and cannot be opened for reading. -/
def unreadableGarbage : FS where
  files := fun p => if p = "burrow.pid" then some "12a" else none
  unreadable := fun p => p = "burrow.pid"
  readOnly := fun _ => false

/-- A file system whose only entry is the marker `burrow.pid`, which holds `77`
and lies in a directory that is not writable. -/
def readOnlyMarker : FS where
  files := fun p => if p = "burrow.pid" then some "77" else none
  unreadable := fun _ => false
  readOnly := fun p => p = "burrow.pid"

/-- A process with identifier 4242 started at 2015-03-09 19:05:01 on the given
file system. -/
def host (fs : FS) : State where
  fs := fs
  pid := 4242
  now := ⟨2015, 3, 9, 19, 5, 1⟩
  stdout := none
  stderr := none
  log := []

/-! ## Basic facts about the host model -/

theorem FS.set_files_same (fs : FS) (name : String) (entry : Option String) :
    (fs.set name entry).files name = entry := by
  simp [FS.set]

theorem FS.set_files_other (fs : FS) (name : String) (entry : Option String) (p : String)
    (h : p ≠ name) : (fs.set name entry).files p = fs.files p := by
  simp [FS.set, h]

/-- Writing to a nil file and closing it leaves the state as it was. -/
theorem writePid_nil (st : State) : writePid st none = st := by
  cases st
  rfl

/-- Exclusive creation fails only without touching the file system. -/
theorem OpenFile_excl_error (fs : FS) (name : String) (err : GoError)
    (h : (OpenFile fs name true).2.2 = some err) :
    (OpenFile fs name true).1 = fs ∧ (OpenFile fs name true).2.1 = none := by
  unfold OpenFile at h ⊢
  cases hf : fs.files name with
  | some c => simp
  | none =>
    cases hr : fs.readOnly name with
    | true => simp
    | false => simp [hf, hr] at h

/-- The second and later frames of `createPidFile` add nothing of their own:
with one more recursive call allowed, a failed exclusive creation followed by
the verdict "not running" gives what the retry gives. -/
theorem createPidFile_retry (fuel : Nat) (st st1 : State) (filename : String) (err : GoError)
    (hopen : (OpenFile st.fs filename true).2.2 = some err)
    (hrun : isProcessRunning st filename = .returned false st1) :
    createPidFile (fuel + 1) st filename = createPidFile fuel (removePidFile st1 filename) filename ∧
    createPidFile 0 st filename = .retrying (removePidFile st1 filename) := by
  obtain ⟨h1, h2⟩ := OpenFile_excl_error st.fs filename err hopen
  have hst : ({ st with fs := (OpenFile st.fs filename true).1 } : State) = st := by
    rw [h1]
  constructor
  · rw [createPidFile]
    simp only [hopen, hst, hrun, h2]
    cases createPidFile fuel (removePidFile st1 filename) filename with
    | done st2 => simp [writePid_nil]
    | exited status st2 => rfl
    | retrying st2 => rfl
  · rw [createPidFile]
    simp only [hopen, hst, hrun]

/-- A verdict "not running" depends on the file system alone, and the call
adds at most informational records to the log. -/
theorem isProcessRunning_false_stable (st st1 : State) (filename : String)
    (h : isProcessRunning st filename = .returned false st1) :
    ∃ recs : List (LogCall Arg), (∀ c ∈ recs, c.level = .Info) ∧
      ∀ st2 : State, st2.fs = st.fs →
        isProcessRunning st2 filename = .returned false { st2 with log := st2.log ++ recs } := by
  unfold isProcessRunning at h
  cases hr : ReadFile st.fs filename with
  | error e =>
    refine ⟨[], by simp, ?_⟩
    intro st2 h2
    rw [← h2] at hr
    simp [isProcessRunning, hr]
  | ok data =>
    rw [hr] at h
    cases ha : Atoi data with
    | none => simp [ha] at h
    | some pid =>
      cases hs : Stat st.fs ("/proc/" ++ runeString pid) with
      | none => simp [ha, hs] at h
      | some e =>
        refine ⟨[⟨.Info, "No Burrow process exists with PID: %d", [.int pid]⟩], by simp, ?_⟩
        intro st2 h2
        rw [← h2] at hr hs
        simp [isProcessRunning, hr, ha, hs, State.logf]

/-- A failed removal changes nothing but the log, which gains two warnings. -/
theorem removePidFile_fails (st : State) (filename : String) (rerr : GoError)
    (hrem : (Remove st.fs filename).2 = some rerr) :
    removePidFile st filename =
      { st with log := st.log ++ [⟨.Warn, "Removing PID file: %s", [.str filename]⟩,
          ⟨.Warn, "Failed to remove PID file: %v", [.err rerr]⟩] } := by
  have hfs : (Remove st.fs filename).1 = st.fs := by
    unfold Remove at hrem ⊢
    cases hf : st.fs.files filename with
    | none => simp
    | some c =>
      cases hro : st.fs.readOnly filename with
      | true => simp
      | false => simp [hf, hro] at hrem
  cases st with
  | mk fs pid now out err log =>
    simp only [removePidFile, State.logf] at hrem hfs ⊢
    simp [hrem, hfs]

/-! ## Decimal text and the time stamp -/

theorem digitChar_isDigit : ∀ d : Nat, d < 10 → '0' ≤ Nat.digitChar d ∧ Nat.digitChar d ≤ '9' := by
  decide

theorem toDigitsCore_digits (f : Nat) : ∀ (n : Nat) (acc : List Char),
    (∀ c ∈ acc, '0' ≤ c ∧ c ≤ '9') → ∀ c ∈ Nat.toDigitsCore 10 f n acc, '0' ≤ c ∧ c ≤ '9' := by
  induction f with
  | zero => intro n acc hacc; simpa [Nat.toDigitsCore] using hacc
  | succ f ih =>
    intro n acc hacc
    have hd := digitChar_isDigit (n % 10) (Nat.mod_lt _ (by decide))
    have hacc2 : ∀ c ∈ Nat.digitChar (n % 10) :: acc, '0' ≤ c ∧ c ≤ '9' := by
      intro c hc
      rcases List.mem_cons.mp hc with hc | hc
      · rw [hc]; exact hd
      · exact hacc c hc
    unfold Nat.toDigitsCore
    by_cases hz : n / 10 = 0
    · simpa [hz] using hacc2
    · simp only [hz, if_false]
      exact ih _ _ hacc2

theorem repr_digits (n : Nat) : ∀ c ∈ (Nat.repr n).data, '0' ≤ c ∧ c ≤ '9' := by
  unfold Nat.repr Nat.toDigits
  exact toDigitsCore_digits _ _ _ (by simp)

theorem appendInt_data_length (x width : Nat) (h : (Nat.repr x).length ≤ width) :
    (appendInt x width).data.length = width := by
  unfold appendInt
  simp only [String.data_append, List.length_append, List.length_replicate]
  have : (Nat.repr x).data.length = (Nat.repr x).length := rfl
  omega

theorem appendInt_digits (x width : Nat) : ∀ c ∈ (appendInt x width).data, '0' ≤ c ∧ c ≤ '9' := by
  intro c hc
  unfold appendInt at hc
  simp only [String.data_append, List.mem_append] at hc
  rcases hc with hc | hc
  · rw [List.eq_of_mem_replicate hc]; decide
  · exact repr_digits x c hc

/-- Reading digits on from a value `init` shifts `init` left by the number of
digits read. -/
theorem foldl_digits_init (cs : List Char) : ∀ init : Nat,
    cs.foldl (fun n c => 10 * n + (c.toNat - 48)) init =
      init * 10 ^ cs.length + decimalValue cs := by
  induction cs with
  | nil => intro init; simp [decimalValue]
  | cons c rest ih =>
    intro init
    show List.foldl (fun n c => 10 * n + (c.toNat - 48)) (10 * init + (c.toNat - 48)) rest =
      init * 10 ^ (rest.length + 1) +
        List.foldl (fun n c => 10 * n + (c.toNat - 48)) (10 * 0 + (c.toNat - 48)) rest
    rw [ih (10 * init + (c.toNat - 48)), ih (10 * 0 + (c.toNat - 48))]
    ring

theorem decimalValue_cons (c : Char) (rest : List Char) :
    decimalValue (c :: rest) = (c.toNat - 48) * 10 ^ rest.length + decimalValue rest := by
  have h := foldl_digits_init rest (10 * 0 + (c.toNat - 48))
  simp only [Nat.mul_zero, Nat.zero_add] at h
  simpa [decimalValue] using h

theorem digitChar_value : ∀ d : Nat, d < 10 → (Nat.digitChar d).toNat - 48 = d := by
  decide

theorem toDigitsCore_value (f : Nat) : ∀ (n : Nat) (acc : List Char), n < f →
    decimalValue (Nat.toDigitsCore 10 f n acc) = n * 10 ^ acc.length + decimalValue acc := by
  induction f with
  | zero => intro n acc h; omega
  | succ f ih =>
    intro n acc hn
    have hd := digitChar_value (n % 10) (Nat.mod_lt _ (by decide))
    unfold Nat.toDigitsCore
    by_cases hz : n / 10 = 0
    · have hsmall : n % 10 = n := Nat.mod_eq_of_lt (by omega)
      simp only [hz, if_true]
      rw [decimalValue_cons, hd, hsmall]
    · simp only [hz, if_false]
      rw [ih (n / 10) _ (by omega), decimalValue_cons, hd]
      simp only [List.length_cons]
      have hsplit : n = 10 * (n / 10) + n % 10 := (Nat.div_add_mod n 10).symm
      generalize n / 10 = q at hsplit ⊢
      generalize n % 10 = r at hsplit ⊢
      subst hsplit
      ring

/-- The decimal text of `n` denotes `n`. -/
theorem repr_value (n : Nat) : decimalValue (Nat.repr n).data = n := by
  unfold Nat.repr Nat.toDigits
  have h := toDigitsCore_value (n + 1) n [] (by omega)
  simpa [List.asString, decimalValue] using h

theorem decimalValue_zeros (k : Nat) (cs : List Char) :
    decimalValue (List.replicate k '0' ++ cs) = decimalValue cs := by
  induction k with
  | zero => simp
  | succ k ih =>
    rw [List.replicate_succ, List.cons_append, decimalValue_cons, ih]
    have h0 : ('0' : Char).toNat - 48 = 0 := by decide
    rw [h0]
    simp

/-- Zero padding keeps the value. -/
theorem appendInt_value (x width : Nat) : decimalValue (appendInt x width).data = x := by
  unfold appendInt
  simp only [String.data_append]
  rw [decimalValue_zeros, repr_value]

/-- The text written for a non-negative identifier is a run of decimal digits
that denotes the identifier. -/
theorem fmtInt_decimal (i : Int) (h : 0 ≤ i) :
    (∀ c ∈ (fmtInt i).data, '0' ≤ c ∧ c ≤ '9') ∧ decimalValue (fmtInt i).data = i.toNat := by
  have hneg : ¬ i < 0 := by omega
  simp only [fmtInt, hneg, if_false]
  exact ⟨repr_digits _, repr_value _⟩

theorem Format_stamp (t : LocalTime) (hv : t.valid) : Stamp t t.Format := by
  obtain ⟨hy, -, hmo, -, hd, hh, hmi, hs⟩ := hv
  refine ⟨(appendInt t.year 4).data, (appendInt t.month 2).data, (appendInt t.day 2).data,
    (appendInt t.hour 2).data, (appendInt t.minute 2).data, (appendInt t.second 2).data,
    ?_, ⟨?_, ?_, ?_, ?_, ?_, ?_⟩, ?_, appendInt_value _ _, appendInt_value _ _,
    appendInt_value _ _, appendInt_value _ _, appendInt_value _ _, appendInt_value _ _⟩
  · simp [LocalTime.Format, String.data_append]
  · exact appendInt_data_length _ _ (Nat.repr_length _ _ (by decide) (by omega))
  · exact appendInt_data_length _ _ (Nat.repr_length _ _ (by decide) (by omega))
  · exact appendInt_data_length _ _ (Nat.repr_length _ _ (by decide) (by omega))
  · exact appendInt_data_length _ _ (Nat.repr_length _ _ (by decide) (by omega))
  · exact appendInt_data_length _ _ (Nat.repr_length _ _ (by decide) (by omega))
  · exact appendInt_data_length _ _ (Nat.repr_length _ _ (by decide) (by omega))
  · intro c hc
    simp only [List.mem_append] at hc
    rcases hc with ((((hc | hc) | hc) | hc) | hc) | hc <;> exact appendInt_digits _ _ c hc

theorem Stamp_length (t : LocalTime) (s : String) (h : Stamp t s) : s.length = 19 := by
  obtain ⟨y, mo, d, hh, mi, sec, hs, ⟨h1, h2, h3, h4, h5, h6⟩, -⟩ := h
  show s.data.length = 19
  rw [hs]
  simp only [List.length_append, List.length_cons]
  omega

theorem isDigit_iff (c : Char) : c.isDigit = true ↔ '0' ≤ c ∧ c ≤ '9' := by
  simp only [Char.isDigit, Bool.and_eq_true, decide_eq_true_eq]
  exact Iff.rfl

theorem parseDigits_eq_some (cs : List Char) (n : Nat) :
    parseDigits cs = some n ↔
      cs ≠ [] ∧ (∀ c ∈ cs, '0' ≤ c ∧ c ≤ '9') ∧
        cs.foldl (fun n c => 10 * n + (c.toNat - 48)) 0 = n := by
  cases cs with
  | nil => simp [parseDigits]
  | cons c rest =>
    simp only [parseDigits, ne_eq, reduceCtorEq, not_false_eq_true, true_and]
    by_cases hall : (c :: rest).all Char.isDigit = true
    · have hd : ∀ x ∈ c :: rest, '0' ≤ x ∧ x ≤ '9' := by
        intro x hx
        exact (isDigit_iff x).mp (List.all_eq_true.mp hall x hx)
      simp only [hall, if_true, Option.some.injEq]
      exact ⟨fun h => ⟨hd, h⟩, fun h => h.2⟩
    · have hd : ¬ ∀ x ∈ c :: rest, '0' ≤ x ∧ x ≤ '9' := by
        intro h
        exact hall (List.all_eq_true.mpr (fun x hx => (isDigit_iff x).mpr (h x hx)))
      simp only [hall]
      constructor
      · intro h; simp at h
      · intro h; exact absurd h.1 hd

/-- Contents that `Atoi` rejects: empty, non-numeric, digits followed by other
characters (a final newline among them), a bare sign, a value out of range. -/
theorem Atoi_rejects_examples :
    Atoi "" = none ∧ Atoi "burrow" = none ∧ Atoi "12a" = none ∧ Atoi "1234\n" = none ∧
    Atoi "-" = none ∧ Atoi "9223372036854775808" = none := by
  decide

/-- The sign that `Atoi` picks off and the digits it leaves. -/
theorem Atoi_split (s : String) :
    ∃ (neg : Bool) (sign ds : List Char),
      s.data = sign ++ ds ∧
      ((sign = [] ∧ neg = false ∧ ∀ c rest, ds = c :: rest → c ≠ '+' ∧ c ≠ '-') ∨
        (sign = ['+'] ∧ neg = false) ∨ (sign = ['-'] ∧ neg = true)) ∧
      Atoi s = (match parseDigits ds with
        | none => none
        | some un =>
          if neg then (if un > 2 ^ 63 then none else some (-(un : Int)))
          else (if un ≥ 2 ^ 63 then none else some (un : Int))) := by
  unfold Atoi
  split
  · next rest h => exact ⟨false, ['+'], rest, by simpa using h, by simp, rfl⟩
  · next rest h => exact ⟨true, ['-'], rest, by simpa using h, by simp, rfl⟩
  · next rest h1 h2 =>
    refine ⟨false, [], s.data, by simp, Or.inl ⟨rfl, rfl, ?_⟩, rfl⟩
    intro c rest hc
    constructor
    · intro hplus; exact h1 rest (by rw [hc, hplus])
    · intro hminus; exact h2 rest (by rw [hc, hminus])

theorem Atoi_accepts_iff (s : String) : (∃ i, Atoi s = some i) ↔ SignedDecimal s := by
  obtain ⟨neg, sign, ds, hdata, hsign, hatoi⟩ := Atoi_split s
  rw [hatoi]
  constructor
  · rintro ⟨i, hi⟩
    cases hp : parseDigits ds with
    | none => simp [hp] at hi
    | some un =>
      obtain ⟨hne, hdig, hval⟩ := (parseDigits_eq_some ds un).mp hp
      refine ⟨sign, ds, hdata, ?_, hne, hdig, ?_⟩
      · rcases hsign with h | h | h
        · exact Or.inl h.1
        · exact Or.inr (Or.inl h.1)
        · exact Or.inr (Or.inr h.1)
      · rw [hval]
        rcases hsign with ⟨h, hn, -⟩ | ⟨h, hn⟩ | ⟨h, hn⟩
        · subst h hn
          simp [hp] at hi
          simp
          omega
        · subst h hn
          simp [hp] at hi
          simp
          omega
        · subst h hn
          simp [hp] at hi
          simp
          omega
  · rintro ⟨sign', digits, hdata', hsign', hne', hdig', hval'⟩
    have hhead : ∀ c rest, digits = c :: rest → c ≠ '+' ∧ c ≠ '-' := by
      intro c rest hc
      have h := hdig' c (by rw [hc]; exact List.mem_cons_self _ _)
      constructor
      · intro h2; rw [h2] at h; exact absurd h (by decide)
      · intro h2; rw [h2] at h; exact absurd h (by decide)
    obtain ⟨d0, drest, hd0⟩ := List.exists_cons_of_ne_nil hne'
    have hsame : sign' = sign ∧ digits = ds := by
      rw [hdata] at hdata'
      rcases hsign with ⟨h, -, hds⟩ | ⟨h, -⟩ | ⟨h, -⟩ <;>
        rcases hsign' with h' | h' | h' <;> subst h h'
      · exact ⟨rfl, by simpa using hdata'.symm⟩
      · exact absurd rfl (hds '+' digits (by simpa using hdata')).1
      · exact absurd rfl (hds '-' digits (by simpa using hdata')).2
      · simp only [List.nil_append, List.singleton_append] at hdata'
        exact absurd rfl (hhead '+' ds hdata'.symm).1
      · exact ⟨rfl, by simpa using hdata'.symm⟩
      · simp at hdata'
      · simp only [List.nil_append, List.singleton_append] at hdata'
        exact absurd rfl (hhead '-' ds hdata'.symm).2
      · simp at hdata'
      · exact ⟨rfl, by simpa using hdata'.symm⟩
    obtain ⟨hs, hd⟩ := hsame
    subst hs hd
    have hp : parseDigits digits =
        some (digits.foldl (fun n c => 10 * n + (c.toNat - 48)) 0) :=
      (parseDigits_eq_some digits _).mpr ⟨hne', hdig', rfl⟩
    rw [hp]
    rcases hsign with ⟨h, hn, -⟩ | ⟨h, hn⟩ | ⟨h, hn⟩
    · subst h hn
      simp only [List.nil_eq, reduceCtorEq, if_false, Nat.add_zero] at hval'
      have hnot : ¬ digits.foldl (fun n c => 10 * n + (c.toNat - 48)) 0 ≥ 2 ^ 63 := by omega
      exact ⟨_, by simp only [Bool.false_eq_true, if_false, if_neg hnot]; rfl⟩
    · subst h hn
      simp only [List.cons.injEq, Char.reduceEq, and_true, if_false, Nat.add_zero] at hval'
      have hnot : ¬ digits.foldl (fun n c => 10 * n + (c.toNat - 48)) 0 ≥ 2 ^ 63 := by omega
      exact ⟨_, by simp only [Bool.false_eq_true, if_false, if_neg hnot]; rfl⟩
    · subst h hn
      simp only [if_true] at hval'
      have hnot : ¬ digits.foldl (fun n c => 10 * n + (c.toNat - 48)) 0 > 2 ^ 63 := by omega
      exact ⟨_, by simp only [if_true, if_neg hnot]; rfl⟩

theorem toDigitsCore_length_ge (f : Nat) : ∀ (n : Nat) (acc : List Char),
    acc.length ≤ (Nat.toDigitsCore 10 f n acc).length := by
  induction f with
  | zero => intro n acc; simp [Nat.toDigitsCore]
  | succ f ih =>
    intro n acc
    unfold Nat.toDigitsCore
    by_cases hz : n / 10 = 0
    · simp [hz]
    · simp only [hz, if_false]
      have := ih (n / 10) (Nat.digitChar (n % 10) :: acc)
      simp only [List.length_cons] at this
      omega

theorem repr_length_pos (n : Nat) : 1 ≤ (Nat.repr n).data.length := by
  unfold Nat.repr Nat.toDigits Nat.toDigitsCore
  by_cases hz : n / 10 = 0
  · simp [hz, List.asString]
  · simp only [hz, if_false, List.asString]
    have := toDigitsCore_length_ge n (n / 10) [Nat.digitChar (n % 10)]
    simpa using this

theorem repr_length_two (n : Nat) (h : 10 ≤ n) : 2 ≤ (Nat.repr n).data.length := by
  obtain ⟨m, rfl⟩ : ∃ m, n = m + 1 := ⟨n - 1, by omega⟩
  have hz : (m + 1) / 10 ≠ 0 := by omega
  unfold Nat.repr Nat.toDigits Nat.toDigitsCore
  simp only [hz, if_false, List.asString]
  unfold Nat.toDigitsCore
  by_cases hz2 : (m + 1) / 10 / 10 = 0
  · simp [hz2]
  · simp only [hz2, if_false]
    have := toDigitsCore_length_ge m ((m + 1) / 10 / 10)
      [Nat.digitChar ((m + 1) / 10 % 10), Nat.digitChar ((m + 1) % 10)]
    simpa using this

/-- The text `string(i)` is never the decimal text of `i`. -/
theorem runeString_ne_fmtInt (i : Int) : runeString i ≠ fmtInt i := by
  intro h
  have hone : (runeString i).data.length = 1 := by
    unfold runeString
    split <;> rfl
  rw [h] at hone
  by_cases hneg : i < 0
  · have hpos := repr_length_pos i.natAbs
    simp only [fmtInt, hneg, if_true, String.data_append, List.length_append] at hone
    simp only [List.length_singleton] at hone
    omega
  · by_cases hbig : 10 ≤ i.toNat
    · have htwo := repr_length_two i.toNat hbig
      simp only [fmtInt, hneg, if_false] at hone
      omega
    · obtain ⟨n, rfl⟩ : ∃ n : Nat, i = (n : Int) := ⟨i.toNat, by omega⟩
      have hn : n < 10 := by simpa using hbig
      clear hone hneg hbig
      interval_cases n <;> exact absurd h (by decide)

/-- The path probed for a parsed identifier is never the path `/proc/` followed
by the decimal text of that identifier. -/
theorem probe_path_ne_decimal (i : Int) : "/proc/" ++ runeString i ≠ "/proc/" ++ fmtInt i := by
  intro h
  apply runeString_ne_fmtInt i
  have hdata := congrArg String.data h
  simp only [String.data_append, List.append_cancel_left_eq] at hdata
  exact String.ext hdata

/-! ## The marker file -/

/-- C2: when no file exists at the path and its exclusive creation succeeds,
`createPidFile` returns normally, whatever the fuel, and the file then holds
exactly the decimal text of the caller's own process identifier; no other entry
of the file system changes and nothing is logged. -/
theorem createPidFile_fresh (fuel : Nat) (st : State) (filename : String)
    (habsent : st.fs.files filename = none)
    (hcreate : (OpenFile st.fs filename true).2.2 = none) :
    ∃ st', createPidFile fuel st filename = .done st' ∧
      st'.fs.files filename = some (fmtInt st.pid) ∧
      (∀ p, p ≠ filename → st'.fs.files p = st.fs.files p) ∧
      st'.log = st.log := by
  have hro : st.fs.readOnly filename = false := by
    cases h : st.fs.readOnly filename with
    | false => rfl
    | true => simp [OpenFile, habsent, h] at hcreate
  refine ⟨writePid { st with fs := st.fs.create filename } (some filename), ?_, ?_, ?_, ?_⟩
  · rw [createPidFile]
    simp [OpenFile, habsent, hro]
  · simp [writePid, File.Write, FS.set, FS.create]
  · intro p hp
    simp [writePid, File.Write, FS.set, FS.create, hp]
  · simp [writePid]

theorem createPidFile_fresh_witness :
    (host (fsOf [])).fs.files "burrow.pid" = none ∧
    (OpenFile (host (fsOf [])).fs "burrow.pid" true).2.2 = none ∧
    ∃ st', createPidFile 0 (host (fsOf [])) "burrow.pid" = .done st' ∧
      st'.fs.files "burrow.pid" = some (fmtInt (host (fsOf [])).pid) ∧
      (∀ p, p ≠ "burrow.pid" → st'.fs.files p = (host (fsOf [])).fs.files p) ∧
      st'.log = (host (fsOf [])).log :=
  ⟨by decide, by decide,
    createPidFile_fresh 0 (host (fsOf [])) "burrow.pid" (by decide) (by decide)⟩

/-- C4 (as stated, refuted): the marker exists and holds `12a`, which does not
parse as an integer, but it cannot be read; `isProcessRunning` returns false
before any parse, and `createPidFile` does not end the process: it calls
`removePidFile`, retries, and returns with the marker replaced by its own
identifier. -/
theorem createPidFile_unparseable_counterexample :
    unreadableGarbage.files "burrow.pid" = some "12a" ∧ Atoi "12a" = none ∧
    ∃ st', createPidFile 1 (host unreadableGarbage) "burrow.pid" = .done st' ∧
      st'.log = [⟨.Warn, "Removing PID file: %s", [.str "burrow.pid"]⟩] ∧
      st'.fs.files "burrow.pid" = some "4242" :=
  ⟨by decide, by decide, _, rfl, by decide, by decide⟩

/-- C4 (amended): when the existing marker can be read and its content does
not parse as an integer, `createPidFile` ends the process with exit status 1,
whatever the fuel; the only record logged is the critical "Cannot parse
integer" (so `removePidFile`, whose first statement logs a warning, was not
called) and the file system is unchanged: the marker still exists with the
content read. -/
theorem createPidFile_unparseable (fuel : Nat) (st : State) (filename : String) (data : String)
    (hread : ReadFile st.fs filename = .ok data)
    (hparse : Atoi data = none) :
    ∃ st', createPidFile fuel st filename = .exited 1 st' ∧
      st'.fs = st.fs ∧ st'.fs.files filename = some data ∧
      st'.log = st.log ++ [⟨.Critical, "Cannot parse integer: %s", [.str data]⟩] := by
  have hfile : st.fs.files filename = some data := by
    unfold ReadFile at hread
    cases hf : st.fs.files filename with
    | none => simp [hf] at hread
    | some c =>
      cases hu : st.fs.unreadable filename with
      | true => simp [hf, hu] at hread
      | false => simpa [hf, hu] using hread
  have hst : ({ st with fs := st.fs } : State) = st := rfl
  refine ⟨st.logf .Critical "Cannot parse integer: %s" [.str data], ?_, rfl, hfile, rfl⟩
  rw [createPidFile]
  simp [OpenFile, hfile, isProcessRunning, hread, hparse]

theorem createPidFile_unparseable_witness :
    ReadFile (host (fsOf [("burrow.pid", "12a")])).fs "burrow.pid" = .ok "12a" ∧
    Atoi "12a" = none ∧
    ∃ st', createPidFile 3 (host (fsOf [("burrow.pid", "12a")])) "burrow.pid" = .exited 1 st' ∧
      st'.fs = (host (fsOf [("burrow.pid", "12a")])).fs ∧
      st'.fs.files "burrow.pid" = some "12a" ∧
      st'.log = (host (fsOf [("burrow.pid", "12a")])).log ++
        [⟨.Critical, "Cannot parse integer: %s", [.str "12a"]⟩] :=
  ⟨rfl, by decide,
    createPidFile_unparseable 3 (host (fsOf [("burrow.pid", "12a")])) "burrow.pid" "12a"
      rfl (by decide)⟩

/-- C8 (as stated, refuted): the marker exists, so its exclusive creation
fails, and it cannot be read; `createPidFile` does not end the process: it
calls `removePidFile` (the warning "Removing PID file" is the only record
logged), retries, and returns with its own identifier in the marker. -/
theorem createPidFile_unreadable_counterexample :
    (OpenFile unreadableMarker "burrow.pid" true).2.2 =
      some (.pathError "open" "burrow.pid" .EEXIST) ∧
    ReadFile unreadableMarker "burrow.pid" = .error (.pathError "open" "burrow.pid" .EACCES) ∧
    ∃ st', createPidFile 1 (host unreadableMarker) "burrow.pid" = .done st' ∧
      st'.log = [⟨.Warn, "Removing PID file: %s", [.str "burrow.pid"]⟩] ∧
      st'.fs.files "burrow.pid" = some "4242" :=
  ⟨by decide, rfl, _, rfl, by decide, by decide⟩

/-- C8 (amended): when exclusive creation of the marker fails and the marker
cannot be read, `isProcessRunning` returns false without logging and without
ending the process, and `createPidFile` calls `removePidFile` and retries the
acquisition: with a recursive call allowed its result is the result of the
retry from the state `removePidFile` leaves, and with none allowed it is about
to retry in that state. -/
theorem createPidFile_unreadable_retries (fuel : Nat) (st : State) (filename : String)
    (err rerr : GoError)
    (hopen : (OpenFile st.fs filename true).2.2 = some err)
    (hread : ReadFile st.fs filename = .error rerr) :
    isProcessRunning st filename = .returned false st ∧
    createPidFile (fuel + 1) st filename =
      createPidFile fuel (removePidFile st filename) filename ∧
    createPidFile 0 st filename = .retrying (removePidFile st filename) := by
  have hrun : isProcessRunning st filename = .returned false st := by
    simp [isProcessRunning, hread]
  exact ⟨hrun, createPidFile_retry fuel st st filename err hopen hrun⟩

theorem createPidFile_unreadable_retries_witness :
    (OpenFile (host unreadableMarker).fs "burrow.pid" true).2.2 =
      some (.pathError "open" "burrow.pid" .EEXIST) ∧
    ReadFile (host unreadableMarker).fs "burrow.pid" =
      .error (.pathError "open" "burrow.pid" .EACCES) ∧
    isProcessRunning (host unreadableMarker) "burrow.pid" =
      .returned false (host unreadableMarker) ∧
    createPidFile (0 + 1) (host unreadableMarker) "burrow.pid" =
      createPidFile 0 (removePidFile (host unreadableMarker) "burrow.pid") "burrow.pid" ∧
    createPidFile 0 (host unreadableMarker) "burrow.pid" =
      .retrying (removePidFile (host unreadableMarker) "burrow.pid") :=
  ⟨by decide, rfl,
    createPidFile_unreadable_retries 0 (host unreadableMarker) "burrow.pid"
      (.pathError "open" "burrow.pid" .EEXIST) (.pathError "open" "burrow.pid" .EACCES)
      (by decide) rfl⟩

/-- With a failed exclusive creation, the verdict "not running" and a failed
removal, a run with room for `fuel` nested calls uses all of it: it makes
`fuel + 1` attempts and is then about to call itself again, with the file
system and the process identifier of the start and the records of `fuel + 1`
attempts added to the log. -/
theorem createPidFile_removal_fails_retrying (st st1 : State) (filename : String)
    (err rerr : GoError)
    (hopen : (OpenFile st.fs filename true).2.2 = some err)
    (hrun : isProcessRunning st filename = .returned false st1)
    (hrem : (Remove st.fs filename).2 = some rerr) :
    ∃ recs : List (LogCall Arg),
      ⟨.Warn, "Failed to remove PID file: %v", [.err rerr]⟩ ∈ recs ∧
      (∀ c ∈ recs, c.level = .Info ∨ c.level = .Warn) ∧
      ∀ fuel : Nat, ∃ st', createPidFile fuel st filename = .retrying st' ∧
        st'.fs = st.fs ∧ st'.pid = st.pid ∧
        st'.log = st.log ++ (List.replicate (fuel + 1) recs).flatten := by
  obtain ⟨recs0, hinfo, hstable⟩ := isProcessRunning_false_stable st st1 filename hrun
  refine ⟨recs0 ++ [⟨.Warn, "Removing PID file: %s", [.str filename]⟩,
    ⟨.Warn, "Failed to remove PID file: %v", [.err rerr]⟩], by simp, ?_, ?_⟩
  · intro c hc
    simp only [List.mem_append, List.mem_cons, List.mem_singleton, List.not_mem_nil,
      or_false] at hc
    rcases hc with hc | hc | hc
    · exact Or.inl (hinfo c hc)
    · exact Or.inr (by rw [hc])
    · exact Or.inr (by rw [hc])
  · intro fuel
    suffices hgen : ∀ st2 : State, st2.fs = st.fs →
        ∃ st', createPidFile fuel st2 filename = .retrying st' ∧
          st'.fs = st.fs ∧ st'.pid = st2.pid ∧
          st'.log = st2.log ++ (List.replicate (fuel + 1)
            (recs0 ++ [⟨.Warn, "Removing PID file: %s", [.str filename]⟩,
              ⟨.Warn, "Failed to remove PID file: %v", [.err rerr]⟩])).flatten from
      hgen st rfl
    induction fuel with
    | zero =>
      intro st2 h2
      have hopen2 : (OpenFile st2.fs filename true).2.2 = some err := by rw [h2]; exact hopen
      have hrem2 : (Remove ({ st2 with log := st2.log ++ recs0 } : State).fs filename).2 =
          some rerr := by
        show (Remove st2.fs filename).2 = some rerr
        rw [h2]; exact hrem
      have hstep := (createPidFile_retry 0 st2 _ filename err hopen2 (hstable st2 h2)).2
      rw [removePidFile_fails _ filename rerr hrem2] at hstep
      refine ⟨_, hstep, h2, rfl, ?_⟩
      simp
    | succ n ih =>
      intro st2 h2
      have hopen2 : (OpenFile st2.fs filename true).2.2 = some err := by rw [h2]; exact hopen
      have hrem2 : (Remove ({ st2 with log := st2.log ++ recs0 } : State).fs filename).2 =
          some rerr := by
        show (Remove st2.fs filename).2 = some rerr
        rw [h2]; exact hrem
      have hstep := (createPidFile_retry n st2 _ filename err hopen2 (hstable st2 h2)).1
      rw [removePidFile_fails _ filename rerr hrem2] at hstep
      obtain ⟨st', hres, hfs, hpid, hlog⟩ :=
        ih { st2 with log := (st2.log ++ recs0) ++
          [⟨.Warn, "Removing PID file: %s", [.str filename]⟩,
            ⟨.Warn, "Failed to remove PID file: %v", [.err rerr]⟩] } h2
      refine ⟨st', hstep.trans hres, hfs, hpid, ?_⟩
      rw [hlog]
      simp [List.replicate_succ, List.append_assoc]

/-- When the room for nested calls is used up, the runtime ends the process
with exit status 2. -/
theorem createPidFileOnStack_overflow (frames : Nat) (st st' : State) (filename : String)
    (h : createPidFile frames st filename = .retrying st') :
    createPidFileOnStack frames st filename = .exited 2 st' := by
  unfold createPidFileOnStack
  rw [h]

/-- C10 (as stated, refuted): the marker lies in a directory that is not
writable, so exclusive creation fails, `isProcessRunning` returns false and the
removal fails, and no attempt changes the file system.  On a goroutine stack
with room for 5000000 nested calls `createPidFile` does not retry for ever:
after 5000001 attempts the runtime ends the process with exit status 2, the
marker still in place. -/
theorem createPidFile_removal_fails_counterexample :
    (OpenFile (host readOnlyMarker).fs "burrow.pid" true).2.2 =
      some (.pathError "open" "burrow.pid" .EEXIST) ∧
    (∃ st1, isProcessRunning (host readOnlyMarker) "burrow.pid" = .returned false st1) ∧
    (Remove (host readOnlyMarker).fs "burrow.pid").2 =
      some (.pathError "remove" "burrow.pid" .EACCES) ∧
    ∃ st', createPidFileOnStack 5000000 (host readOnlyMarker) "burrow.pid" = .exited 2 st' ∧
      st'.fs.files "burrow.pid" = some "77" := by
  refine ⟨by decide, ⟨_, rfl⟩, by decide, ?_⟩
  obtain ⟨recs, -, -, hall⟩ := createPidFile_removal_fails_retrying (host readOnlyMarker)
    ((host readOnlyMarker).logf .Info "No Burrow process exists with PID: %d" [.int 77])
    "burrow.pid" (.pathError "open" "burrow.pid" .EEXIST)
    (.pathError "remove" "burrow.pid" .EACCES) (by decide) rfl (by decide)
  obtain ⟨st', hres, hfs, -, -⟩ := hall 5000000
  have hmarker : (host readOnlyMarker).fs.files "burrow.pid" = some "77" := by decide
  exact ⟨st', createPidFileOnStack_overflow _ _ _ _ hres, hfs ▸ hmarker⟩

/-- C10 (amended): a failed removal is not fatal by itself.  When exclusive
creation fails, `isProcessRunning` returns false and the removal fails,
`createPidFile` never returns and never reaches one of its own `os.Exit`
calls: whatever room `frames` the goroutine stack has for nested calls, after
`frames + 1` attempts it is about to retry, the file system and the process
identifier are those of the start, and the log has grown by `frames + 1`
copies of the records of one attempt, which are informational records and
warnings only and hold the warning "Failed to remove PID file".  At that
point the room is used up and the Go runtime ends the process with a stack
overflow, exit status 2. -/
theorem createPidFile_removal_fails_overflows (st st1 : State) (filename : String)
    (err rerr : GoError)
    (hopen : (OpenFile st.fs filename true).2.2 = some err)
    (hrun : isProcessRunning st filename = .returned false st1)
    (hrem : (Remove st.fs filename).2 = some rerr) :
    ∃ recs : List (LogCall Arg),
      ⟨.Warn, "Failed to remove PID file: %v", [.err rerr]⟩ ∈ recs ∧
      (∀ c ∈ recs, c.level = .Info ∨ c.level = .Warn) ∧
      ∀ frames : Nat, ∃ st', createPidFile frames st filename = .retrying st' ∧
        createPidFileOnStack frames st filename = .exited 2 st' ∧
        st'.fs = st.fs ∧ st'.pid = st.pid ∧
        st'.log = st.log ++ (List.replicate (frames + 1) recs).flatten := by
  obtain ⟨recs, hmem, hlevels, hall⟩ :=
    createPidFile_removal_fails_retrying st st1 filename err rerr hopen hrun hrem
  refine ⟨recs, hmem, hlevels, ?_⟩
  intro frames
  obtain ⟨st', hres, hfs, hpid, hlog⟩ := hall frames
  exact ⟨st', hres, createPidFileOnStack_overflow _ _ _ _ hres, hfs, hpid, hlog⟩

theorem createPidFile_removal_fails_overflows_witness :
    (OpenFile (host readOnlyMarker).fs "burrow.pid" true).2.2 =
      some (.pathError "open" "burrow.pid" .EEXIST) ∧
    (Remove (host readOnlyMarker).fs "burrow.pid").2 =
      some (.pathError "remove" "burrow.pid" .EACCES) ∧
    ∃ recs : List (LogCall Arg),
      ⟨.Warn, "Failed to remove PID file: %v",
        [.err (.pathError "remove" "burrow.pid" .EACCES)]⟩ ∈ recs ∧
      (∀ c ∈ recs, c.level = .Info ∨ c.level = .Warn) ∧
      ∀ frames : Nat, ∃ st',
        createPidFile frames (host readOnlyMarker) "burrow.pid" = .retrying st' ∧
        createPidFileOnStack frames (host readOnlyMarker) "burrow.pid" = .exited 2 st' ∧
        st'.fs = (host readOnlyMarker).fs ∧ st'.pid = (host readOnlyMarker).pid ∧
        st'.log = (host readOnlyMarker).log ++ (List.replicate (frames + 1) recs).flatten :=
  ⟨by decide, by decide,
    createPidFile_removal_fails_overflows (host readOnlyMarker)
      ((host readOnlyMarker).logf .Info "No Burrow process exists with PID: %d" [.int 77])
      "burrow.pid" (.pathError "open" "burrow.pid" .EEXIST)
      (.pathError "remove" "burrow.pid" .EACCES) (by decide) rfl (by decide)⟩

/-- What `isProcessRunning` does with a marker it has read and parsed: it
reports whether an entry exists at `/proc/` followed by `string(pid)`, the text
of the one code point `pid`. -/
theorem isProcessRunning_verdict (st : State) (filename data : String) (pid : Int)
    (hread : ReadFile st.fs filename = .ok data) (hparse : Atoi data = some pid) :
    ∃ st', isProcessRunning st filename =
        .returned (Stat st.fs ("/proc/" ++ runeString pid)).isNone st' ∧
      st'.fs = st.fs := by
  cases hs : Stat st.fs ("/proc/" ++ runeString pid) with
  | none =>
    exact ⟨st.logf .Critical "Burrow already running with PID: %s" [.method "Name"],
      by simp [isProcessRunning, hread, hparse, hs], rfl⟩
  | some e =>
    exact ⟨st.logf .Info "No Burrow process exists with PID: %d" [.int pid],
      by simp [isProcessRunning, hread, hparse, hs], rfl⟩

/-- What `createPidFile` does when the entry it probes exists: it ends the
process with status 1 and leaves the file system as it was. -/
theorem createPidFile_probe_found (fuel : Nat) (st : State) (filename data : String) (pid : Int)
    (hread : ReadFile st.fs filename = .ok data) (hparse : Atoi data = some pid)
    (hprobe : Stat st.fs ("/proc/" ++ runeString pid) = none) :
    ∃ st', createPidFile fuel st filename = .exited 1 st' ∧ st'.fs = st.fs ∧
      ∀ c ∈ st'.log, c ∈ st.log ∨ c.level = .Critical := by
  have hfile : st.fs.files filename = some data := by
    unfold ReadFile at hread
    cases hf : st.fs.files filename with
    | none => simp [hf] at hread
    | some c =>
      cases hu : st.fs.unreadable filename with
      | true => simp [hf, hu] at hread
      | false => simpa [hf, hu] using hread
  refine ⟨(st.logf .Critical "Burrow already running with PID: %s" [.method "Name"]).logf
    .Critical "Cannot write PID file: %v" [.err (.pathError "open" filename .EEXIST)],
    ?_, rfl, ?_⟩
  · rw [createPidFile]
    simp [OpenFile, hfile, isProcessRunning, hread, hparse, hprobe]
  · intro c hc
    simp only [State.logf, List.mem_append, List.mem_singleton] at hc
    rcases hc with (hc | hc) | hc
    · exact Or.inl hc
    · exact Or.inr (by rw [hc])
    · exact Or.inr (by rw [hc])

/-- What `createPidFile` does when the entry it probes is absent and the
marker can be removed: with one recursive call allowed it removes the marker,
retries, and returns with the marker holding exactly the caller's identifier;
the write of the outer call, on the nil file of the failed open, adds
nothing. -/
theorem createPidFile_probe_absent (fuel : Nat) (st : State) (filename data : String)
    (pid : Int) (e : GoError)
    (hread : ReadFile st.fs filename = .ok data) (hparse : Atoi data = some pid)
    (hprobe : Stat st.fs ("/proc/" ++ runeString pid) = some e)
    (hrem : (Remove st.fs filename).2 = none) :
    ∃ st', createPidFile (fuel + 1) st filename = .done st' ∧
      st'.fs.files filename = some (fmtInt st.pid) ∧
      (∀ p, p ≠ filename → st'.fs.files p = st.fs.files p) ∧
      st'.log = st.log ++ [⟨.Info, "No Burrow process exists with PID: %d", [.int pid]⟩,
        ⟨.Warn, "Removing PID file: %s", [.str filename]⟩] := by
  have hfile : st.fs.files filename = some data := by
    unfold ReadFile at hread
    cases hf : st.fs.files filename with
    | none => simp [hf] at hread
    | some c =>
      cases hu : st.fs.unreadable filename with
      | true => simp [hf, hu] at hread
      | false => simpa [hf, hu] using hread
  have hro : st.fs.readOnly filename = false := by
    cases h : st.fs.readOnly filename with
    | false => rfl
    | true => simp [Remove, hfile, h] at hrem
  have hopen : (OpenFile st.fs filename true).2.2 = some (.pathError "open" filename .EEXIST) := by
    simp [OpenFile, hfile]
  have hrun : isProcessRunning st filename =
      .returned false (st.logf .Info "No Burrow process exists with PID: %d" [.int pid]) := by
    simp [isProcessRunning, hread, hparse, hprobe]
  have hstep := (createPidFile_retry fuel st _ filename _ hopen hrun).1
  have hremoved : removePidFile
      (st.logf .Info "No Burrow process exists with PID: %d" [.int pid]) filename =
      { st with
        fs := st.fs.set filename none
        log := st.log ++ [⟨.Info, "No Burrow process exists with PID: %d", [.int pid]⟩,
          ⟨.Warn, "Removing PID file: %s", [.str filename]⟩] } := by
    simp [removePidFile, State.logf, Remove, hfile, hro]
  rw [hremoved] at hstep
  obtain ⟨st', hres, hcontent, hother, hlog⟩ := createPidFile_fresh fuel
    { st with
      fs := st.fs.set filename none
      log := st.log ++ [⟨.Info, "No Burrow process exists with PID: %d", [.int pid]⟩,
        ⟨.Warn, "Removing PID file: %s", [.str filename]⟩] } filename
    (by simp [FS.set]) (by simp [OpenFile, FS.set, hro])
  refine ⟨st', hstep.trans hres, hcontent, ?_, hlog⟩
  intro p hp
  rw [hother p hp]
  simp [FS.set, hp]

/-- C9 (as stated, refuted): markers holding `0`, `-7` and `+7` are not parse
failures; for each `isProcessRunning` returns a liveness verdict and the
process goes on. -/
theorem isProcessRunning_signed_counterexample :
    (Atoi "0" = some 0 ∧ Atoi "-7" = some (-7) ∧ Atoi "+7" = some 7) ∧
    (∃ st', isProcessRunning (host (fsOf [("burrow.pid", "0")])) "burrow.pid" =
      .returned false st') ∧
    (∃ st', isProcessRunning (host (fsOf [("burrow.pid", "-7")])) "burrow.pid" =
      .returned false st') ∧
    (∃ st', isProcessRunning (host (fsOf [("burrow.pid", "+7")])) "burrow.pid" =
      .returned false st') :=
  ⟨by decide, ⟨_, rfl⟩, ⟨_, rfl⟩, ⟨_, rfl⟩⟩

/-- C9 (amended): the content of a marker that was read is accepted exactly
when it is an optional sign `+` or `-` followed by one or more decimal ASCII
digits whose value fits a 64-bit `int`; `isProcessRunning` then returns a
liveness verdict.  For every other content it logs the critical "Cannot parse
integer" and ends the process with status 1. -/
theorem isProcessRunning_accepts_signed (st : State) (filename data : String)
    (hread : ReadFile st.fs filename = .ok data) :
    (SignedDecimal data → ∃ b st', isProcessRunning st filename = .returned b st') ∧
    (¬ SignedDecimal data →
      isProcessRunning st filename =
        .exited 1 (st.logf .Critical "Cannot parse integer: %s" [.str data])) := by
  constructor
  · intro hsd
    obtain ⟨pid, hpid⟩ := (Atoi_accepts_iff data).mpr hsd
    obtain ⟨st', hres, -⟩ := isProcessRunning_verdict st filename data pid hread hpid
    exact ⟨_, st', hres⟩
  · intro hsd
    cases hp : Atoi data with
    | some pid => exact absurd ((Atoi_accepts_iff data).mp ⟨pid, hp⟩) hsd
    | none => simp [isProcessRunning, hread, hp]

theorem isProcessRunning_accepts_signed_witness :
    ReadFile (host (fsOf [("burrow.pid", "+7")])).fs "burrow.pid" = .ok "+7" ∧
    SignedDecimal "+7" ∧
    ∃ b st', isProcessRunning (host (fsOf [("burrow.pid", "+7")])) "burrow.pid" =
      .returned b st' :=
  have hsd : SignedDecimal "+7" :=
    ⟨['+'], ['7'], rfl, Or.inr (Or.inl rfl), by decide, by decide, by decide⟩
  ⟨rfl, hsd,
    (isProcessRunning_accepts_signed (host (fsOf [("burrow.pid", "+7")])) "burrow.pid" "+7"
      rfl).1 hsd⟩

/-- C5 (the code at a failing input): the marker holds `65`.  With the entry
`/proc/65` present `isProcessRunning` returns false, and with `/proc/65` absent
and an entry `/proc/A` present it returns true: the path probed is `/proc/A`,
made with `string(pid)`, not `/proc/65`. -/
theorem isProcessRunning_probes_code_point :
    "/proc/" ++ runeString 65 = "/proc/A" ∧ "/proc/" ++ fmtInt 65 = "/proc/65" ∧
    (Stat (fsOf [("burrow.pid", "65"), ("/proc/65", "")]) "/proc/65" = none ∧
      ∃ st', isProcessRunning (host (fsOf [("burrow.pid", "65"), ("/proc/65", "")]))
          "burrow.pid" = .returned false st' ∧
        st'.log = [⟨.Info, "No Burrow process exists with PID: %d", [.int 65]⟩]) ∧
    (Stat (fsOf [("burrow.pid", "65"), ("/proc/A", "")]) "/proc/65" =
        some (.pathError "stat" "/proc/65" .ENOENT) ∧
      ∃ st', isProcessRunning (host (fsOf [("burrow.pid", "65"), ("/proc/A", "")]))
          "burrow.pid" = .returned true st') :=
  ⟨by decide, by decide, ⟨by decide, _, rfl, by decide⟩, ⟨by decide, _, rfl⟩⟩

/-- C1 (the code at a failing input): the marker holds `1234` and the entry
`/proc/1234` exists, so the recorded process is alive; `createPidFile` does not
end the process: it calls `removePidFile`, retries, and returns with the
marker overwritten by its own identifier. -/
theorem createPidFile_live_owner_overwritten :
    Stat (fsOf [("burrow.pid", "1234"), ("/proc/1234", "")]) ("/proc/" ++ fmtInt 1234) = none ∧
    ∃ st', createPidFile 1 (host (fsOf [("burrow.pid", "1234"), ("/proc/1234", "")]))
        "burrow.pid" = .done st' ∧
      st'.fs.files "burrow.pid" = some "4242" ∧
      st'.log = [⟨.Info, "No Burrow process exists with PID: %d", [.int 1234]⟩,
        ⟨.Warn, "Removing PID file: %s", [.str "burrow.pid"]⟩] :=
  ⟨by decide, _, rfl, by decide, by decide⟩

/-- C3 (the code at a failing input): the marker holds `49`, no entry
`/proc/49` exists, so the recorded process is not alive, and the marker could
be removed; the entry `/proc/1` exists.  `createPidFile` ends the process with
status 1 and the stale marker stays: `string(49)` is `1`, and the path probed
is `/proc/1`. -/
theorem createPidFile_stale_marker_exits :
    Stat (fsOf [("burrow.pid", "49"), ("/proc/1", "")]) ("/proc/" ++ fmtInt 49) =
      some (.pathError "stat" "/proc/49" .ENOENT) ∧
    (Remove (fsOf [("burrow.pid", "49"), ("/proc/1", "")]) "burrow.pid").2 = none ∧
    "/proc/" ++ runeString 49 = "/proc/1" ∧
    ∃ st', createPidFile 1 (host (fsOf [("burrow.pid", "49"), ("/proc/1", "")]))
        "burrow.pid" = .exited 1 st' ∧
      st'.fs.files "burrow.pid" = some "49" ∧
      st'.log = [⟨.Critical, "Burrow already running with PID: %s", [.method "Name"]⟩,
        ⟨.Critical, "Cannot write PID file: %v",
          [.err (.pathError "open" "burrow.pid" .EEXIST)]⟩] :=
  ⟨by decide, by decide, by decide, _, rfl, by decide, by decide⟩

/-! ## The logging facade -/

/-- C6: each of `Trace`, `Debug`, `Info`, `Warn`, `Error` and `Critical` does to
the underlying logger exactly what one call of `Tracef`, `Debugf`, `Infof`,
`Warnf`, `Errorf` and `Criticalf` with the same template and the same arguments
does; on an underlying logger that records the calls made on it, each adds
exactly one record, of the matching method, holding the template and the
argument list unchanged. -/
theorem BurrowLogger_forwards (σ α : Type) (l : BurrowLogger σ α) (message : String)
    (params : List α) (s : σ) (calls : List (LogCall α)) :
    (l.Trace message params s = l.logger.Tracef message params s ∧
      l.Debug message params s = l.logger.Debugf message params s ∧
      l.Info message params s = l.logger.Infof message params s ∧
      l.Warn message params s = l.logger.Warnf message params s ∧
      l.Error message params s = l.logger.Errorf message params s ∧
      l.Critical message params s = l.logger.Criticalf message params s) ∧
    ((BurrowLogger.mk (recorder α)).Trace message params calls =
        calls ++ [⟨.Trace, message, params⟩] ∧
      (BurrowLogger.mk (recorder α)).Debug message params calls =
        calls ++ [⟨.Debug, message, params⟩] ∧
      (BurrowLogger.mk (recorder α)).Info message params calls =
        calls ++ [⟨.Info, message, params⟩] ∧
      (BurrowLogger.mk (recorder α)).Warn message params calls =
        calls ++ [⟨.Warn, message, params⟩] ∧
      (BurrowLogger.mk (recorder α)).Error message params calls =
        calls ++ [⟨.Error, message, params⟩] ∧
      (BurrowLogger.mk (recorder α)).Critical message params calls =
        calls ++ [⟨.Critical, message, params⟩]) :=
  ⟨⟨rfl, rfl, rfl, rfl, rfl, rfl⟩, ⟨rfl, rfl, rfl, rfl, rfl, rfl⟩⟩

/-! ## Output redirection -/

theorem sibling_ne (filename stamp : String) : filename ++ "." ++ stamp ≠ filename := by
  intro h
  have hlen := congrArg String.length h
  simp only [String.length_append] at hlen
  have hdot : ".".length = 1 := rfl
  omega

/-- C7: when a file exists at the target path, the clock reads a calendar time
and the rename succeeds, `openOutLog` returns a handle on the target path; the
original content is then found unchanged at the sibling path made of the
target path, a dot and the local time as `YYYY-MM-DD_HH:MM:SS` (zero-padded
digits, 19 characters), the file at the target path is newly created and
empty, no other entry changes, and descriptors 1 and 2 are bound to the new
file. -/
theorem openOutLog_rotates (st : State) (filename : String) (content : String)
    (hfile : st.fs.files filename = some content)
    (hvalid : st.now.valid)
    (hren : (Rename st.fs filename (filename ++ "." ++ st.now.Format)).2 = none) :
    Stamp st.now st.now.Format ∧ st.now.Format.length = 19 ∧
    ∃ st', openOutLog st filename = .returned (some filename) st' ∧
      st'.fs.files (filename ++ "." ++ st.now.Format) = some content ∧
      st'.fs.files filename = some "" ∧
      (∀ p, p ≠ filename → p ≠ filename ++ "." ++ st.now.Format →
        st'.fs.files p = st.fs.files p) ∧
      st'.stdout = some filename ∧ st'.stderr = some filename ∧ st'.log = st.log := by
  have hstamp := Format_stamp st.now hvalid
  refine ⟨hstamp, Stamp_length _ _ hstamp, ?_⟩
  have hne := sibling_ne filename st.now.Format
  have hro : (st.fs.readOnly filename || st.fs.readOnly (filename ++ "." ++ st.now.Format)) =
      false := by
    cases h : (st.fs.readOnly filename || st.fs.readOnly (filename ++ "." ++ st.now.Format)) with
    | false => rfl
    | true => simp [Rename, hfile, h] at hren
  have hro1 : st.fs.readOnly filename = false := by
    cases h : st.fs.readOnly filename with
    | false => rfl
    | true => simp [h] at hro
  have hro2 : st.fs.readOnly (filename ++ "." ++ st.now.Format) = false := by
    cases h : st.fs.readOnly (filename ++ "." ++ st.now.Format) with
    | false => rfl
    | true => simp [h] at hro
  have hstat : Stat st.fs filename = none := by simp [Stat, hfile]
  have hrename : Rename st.fs filename (filename ++ "." ++ st.now.Format) =
      (st.fs.move filename (filename ++ "." ++ st.now.Format) content, none) := by
    simp [Rename, hfile, hro1, hro2]
  have hopen : OpenFile (st.fs.move filename (filename ++ "." ++ st.now.Format) content)
      filename false =
      ((st.fs.move filename (filename ++ "." ++ st.now.Format) content).create filename,
        some filename, none) := by
    have h1 : (st.fs.move filename (filename ++ "." ++ st.now.Format) content).files
        filename = none := by
      simp [FS.move, hne.symm]
    have h2 : (st.fs.move filename (filename ++ "." ++ st.now.Format) content).readOnly
        filename = false := hro1
    simp only [OpenFile, h1, h2]
    simp
  refine ⟨{ st with
      fs := (st.fs.move filename (filename ++ "." ++ st.now.Format) content).create filename
      stdout := some filename
      stderr := some filename }, ?_, ?_, ?_, ?_, rfl, rfl, rfl⟩
  · unfold openOutLog
    simp only [hstat, hrename, hopen]
    simp [Dup2]
  · simp [FS.move, FS.create, hne, hne.symm]
  · simp [FS.move, FS.create, hne, hne.symm]
  · intro p hp1 hp2
    simp [FS.move, FS.create, hp1, hp2]

theorem openOutLog_rotates_witness :
    (host (fsOf [("burrow.out", "started")])).fs.files "burrow.out" = some "started" ∧
    (host (fsOf [("burrow.out", "started")])).now.valid ∧
    (host (fsOf [("burrow.out", "started")])).now.Format = "2015-03-09_19:05:01" ∧
    Stamp (host (fsOf [("burrow.out", "started")])).now
      (host (fsOf [("burrow.out", "started")])).now.Format ∧
    (host (fsOf [("burrow.out", "started")])).now.Format.length = 19 ∧
    ∃ st', openOutLog (host (fsOf [("burrow.out", "started")])) "burrow.out" =
        .returned (some "burrow.out") st' ∧
      st'.fs.files ("burrow.out" ++ "." ++ (host (fsOf [("burrow.out", "started")])).now.Format) =
        some "started" ∧
      st'.fs.files "burrow.out" = some "" ∧
      (∀ p, p ≠ "burrow.out" →
        p ≠ "burrow.out" ++ "." ++ (host (fsOf [("burrow.out", "started")])).now.Format →
        st'.fs.files p = (host (fsOf [("burrow.out", "started")])).fs.files p) ∧
      st'.stdout = some "burrow.out" ∧ st'.stderr = some "burrow.out" ∧
      st'.log = (host (fsOf [("burrow.out", "started")])).log :=
  ⟨by decide, by decide, by decide,
    openOutLog_rotates (host (fsOf [("burrow.out", "started")])) "burrow.out" "started"
      (by decide) (by decide) (by decide)⟩

end Burrow
